import Mathlib

/-!
Verification of the gesture-interpretation core of the mathiverseVR repository.

Coordinates are modelled as rationals (`ℚ`), scores and timestamps as integers,
finger counts and number values as naturals.  JavaScript array indexing
`landmarks[i]` on a too-short list yields `undefined`, and a subsequent member
access throws; we model this by letting every interpreter function return an
`Option`, where `none` means the frame handler threw.  The in-range accesses use
`List.get?`, bound in the `Option` monad.
-/

namespace Mathiverse

/-- Landmark model: one normalized 3-D joint of a detected hand, mirroring the
`Landmark` type of `types.ts` (`x`, `y`, `z`, optional `visibility`). -/
structure Landmark where
  x : ℚ
  y : ℚ
  z : ℚ
  visibility : Option ℚ := none
deriving DecidableEq

/-- Thumb-extension count of `countFingers` (`handGestureUtils.ts`): the source
reads `landmarks[4].x < landmarks[17].x` as the right-hand heuristic, then
compares thumb tip x against thumb IP x in the direction given by handedness. -/
def thumbCount (l : List Landmark) : Option ℕ := do
  let thumbTip ← l.get? 4
  let pinkyMcp ← l.get? 17
  let thumbIp ← l.get? 3
  pure (if thumbTip.x < pinkyMcp.x then
          (if thumbTip.x < thumbIp.x then 1 else 0)
        else
          (if thumbIp.x < thumbTip.x then 1 else 0))

/-- Per-finger extension test of `countFingers`: a finger counts iff its tip
landmark has strictly smaller `y` than its PIP landmark. -/
def fingerUpCount (l : List Landmark) (tip pip : ℕ) : Option ℕ := do
  let t ← l.get? tip
  let p ← l.get? pip
  pure (if t.y < p.y then 1 else 0)

/-- Model of `countFingers` (`handGestureUtils.ts`): returns `some 0` for the
empty list; otherwise reads the wrist (`landmarks[0].y` in the source), the
thumb landmarks 4/17/3 and the four tip/PIP pairs (8,6) (12,10) (16,14) (20,18).
`none` models the JavaScript TypeError thrown when an accessed index is out of
range on a non-empty list. -/
def countFingers (l : List Landmark) : Option ℕ :=
  if l.length = 0 then some 0 else do
    let _wrist ← l.get? 0
    let tc ← thumbCount l
    let f1 ← fingerUpCount l 8 6
    let f2 ← fingerUpCount l 12 10
    let f3 ← fingerUpCount l 16 14
    let f4 ← fingerUpCount l 20 18
    pure (tc + (f1 + f2 + f3 + f4))

/-- Model of `isPinching` (`handGestureUtils.ts`): `some false` on the empty
list; otherwise compares the thumb-tip / index-tip distance against 0.05.  The
source computes `Math.hypot(dx, dy) < 0.05`; for nonnegative operands this is
equivalent to `dx^2 + dy^2 < 0.05^2`, which is the decidable form used here
(the equivalence with the square-root form is proved below). -/
def isPinching (l : List Landmark) : Option Bool :=
  if l.length = 0 then some false else do
    let thumbTip ← l.get? 4
    let indexTip ← l.get? 8
    let dx := thumbTip.x - indexTip.x
    let dy := thumbTip.y - indexTip.y
    pure (decide (dx ^ 2 + dy ^ 2 < (1 / 20 : ℚ) ^ 2))

/-- Model of `getIndexFingerTipCoordinates` (`handGestureUtils.ts`): outer
`none` models a thrown access; `some none` is the JavaScript `null` returned
for an empty list; `some (some p)` returns landmark 8's `(x, y)`. -/
def getIndexFingerTipCoordinates (l : List Landmark) : Option (Option (ℚ × ℚ)) :=
  if l.length = 0 then some none else do
    let indexTip ← l.get? 8
    pure (some (indexTip.x, indexTip.y))

/-- Model of `getAngleDifference` (`mathHelpers.ts`): the counter-clockwise
difference `angle2 - angle1`, with 360 added once when negative. -/
def getAngleDifference (angle1 angle2 : ℚ) : ℚ :=
  let diff := angle2 - angle1
  if diff < 0 then diff + 360 else diff

/-- Model of `classifyAngle` (`mathHelpers.ts`): sequential thresholds with
jitter tolerance, returning the source's category strings. -/
def classifyAngle (angle : ℚ) : String :=
  if angle < 5 ∨ 355 < angle then "Complete (360°)"
  else if angle < 85 then "Acute"
  else if angle ≤ 95 then "Right"
  else if angle < 175 then "Obtuse"
  else if angle ≤ 185 then "Straight"
  else "Reflex"

/-- Default landmark used only as the `List.getD` fallback in statements whose
hypotheses guarantee the index is in range. -/
def lmD : Landmark := { x := 0, y := 0, z := 0 }

lemma get?_eq_some_getD {l : List Landmark} {n : ℕ} (h : n < l.length) :
    l.get? n = some (l.getD n lmD) := by
  rw [List.get?_eq_get h, List.getD_eq_getElem?_getD, List.getElem?_eq_getElem h]
  rfl

lemma thumbCount_eval {l : List Landmark} (h : 21 ≤ l.length) :
    thumbCount l = some (if (l.getD 4 lmD).x < (l.getD 17 lmD).x then
          (if (l.getD 4 lmD).x < (l.getD 3 lmD).x then 1 else 0)
        else (if (l.getD 3 lmD).x < (l.getD 4 lmD).x then 1 else 0)) := by
  unfold thumbCount
  rw [get?_eq_some_getD (show 4 < l.length by omega),
    get?_eq_some_getD (show 17 < l.length by omega),
    get?_eq_some_getD (show 3 < l.length by omega)]
  rfl

lemma fingerUpCount_eval {l : List Landmark} {t p : ℕ}
    (ht : t < l.length) (hp : p < l.length) :
    fingerUpCount l t p = some (if (l.getD t lmD).y < (l.getD p lmD).y then 1 else 0) := by
  unfold fingerUpCount
  rw [get?_eq_some_getD ht, get?_eq_some_getD hp]
  rfl

lemma countFingers_eval {l : List Landmark} (h : 21 ≤ l.length) :
    countFingers l = some (
      (if (l.getD 4 lmD).x < (l.getD 17 lmD).x then
          (if (l.getD 4 lmD).x < (l.getD 3 lmD).x then 1 else 0)
        else (if (l.getD 3 lmD).x < (l.getD 4 lmD).x then 1 else 0))
      + ((if (l.getD 8 lmD).y < (l.getD 6 lmD).y then 1 else 0)
        + (if (l.getD 12 lmD).y < (l.getD 10 lmD).y then 1 else 0)
        + (if (l.getD 16 lmD).y < (l.getD 14 lmD).y then 1 else 0)
        + (if (l.getD 20 lmD).y < (l.getD 18 lmD).y then 1 else 0))) := by
  unfold countFingers
  rw [if_neg (show ¬ l.length = 0 by omega),
    get?_eq_some_getD (show 0 < l.length by omega),
    thumbCount_eval h,
    fingerUpCount_eval (show 8 < l.length by omega) (show 6 < l.length by omega),
    fingerUpCount_eval (show 12 < l.length by omega) (show 10 < l.length by omega),
    fingerUpCount_eval (show 16 < l.length by omega) (show 14 < l.length by omega),
    fingerUpCount_eval (show 20 < l.length by omega) (show 18 < l.length by omega)]
  rfl

lemma thumbCount_le {l : List Landmark} {t : ℕ} (h : thumbCount l = some t) : t ≤ 1 := by
  unfold thumbCount at h
  cases h4 : l.get? 4 <;> rw [h4] at h
  · simp at h
  cases h17 : l.get? 17 <;> rw [h17] at h
  · simp at h
  cases h3 : l.get? 3 <;> rw [h3] at h
  · simp at h
  simp at h
  subst h
  split_ifs <;> omega

lemma fingerUpCount_le {l : List Landmark} {t p c : ℕ}
    (h : fingerUpCount l t p = some c) : c ≤ 1 := by
  unfold fingerUpCount at h
  cases h1 : l.get? t <;> rw [h1] at h
  · simp at h
  cases h2 : l.get? p <;> rw [h2] at h
  · simp at h
  simp at h
  subst h
  split_ifs <;> omega

lemma countFingers_le {l : List Landmark} {k : ℕ} (h : countFingers l = some k) : k ≤ 5 := by
  unfold countFingers at h
  by_cases h0 : l.length = 0
  · rw [if_pos h0] at h
    simp only [Option.some_inj] at h
    omega
  rw [if_neg h0] at h
  cases hw : l.get? 0 <;> rw [hw] at h
  · simp at h
  cases htc : thumbCount l <;> rw [htc] at h
  · simp at h
  cases hf1 : fingerUpCount l 8 6 <;> rw [hf1] at h
  · simp at h
  cases hf2 : fingerUpCount l 12 10 <;> rw [hf2] at h
  · simp at h
  cases hf3 : fingerUpCount l 16 14 <;> rw [hf3] at h
  · simp at h
  cases hf4 : fingerUpCount l 20 18 <;> rw [hf4] at h
  · simp at h
  simp at h
  have := thumbCount_le htc
  have := fingerUpCount_le hf1
  have := fingerUpCount_le hf2
  have := fingerUpCount_le hf3
  have := fingerUpCount_le hf4
  omega

lemma isPinching_eval {l : List Landmark} {t i : Landmark}
    (ht : l.get? 4 = some t) (hi : l.get? 8 = some i) :
    isPinching l = some (decide ((t.x - i.x) ^ 2 + (t.y - i.y) ^ 2 < (1 / 20 : ℚ) ^ 2)) := by
  have hlen : ¬ l.length = 0 := by
    intro h0
    rw [List.get?_eq_none.mpr (by omega)] at ht
    simp at ht
  unfold isPinching
  rw [if_neg hlen, ht, hi]
  rfl

/-- Claim C1: `classifyAngle` realises exactly the spec's sequential thresholds
(`<5` or `>355` Complete; then `<85` Acute; `≤95` Right; `<175` Obtuse; `≤185`
Straight; else Reflex), including the spec's boundary table. -/
theorem classifyAngle_thresholds (a : ℚ) :
    (classifyAngle a = "Complete (360°)" ↔ (a < 5 ∨ 355 < a))
    ∧ (classifyAngle a = "Acute" ↔ (5 ≤ a ∧ a < 85))
    ∧ (classifyAngle a = "Right" ↔ (85 ≤ a ∧ a ≤ 95))
    ∧ (classifyAngle a = "Obtuse" ↔ (95 < a ∧ a < 175))
    ∧ (classifyAngle a = "Straight" ↔ (175 ≤ a ∧ a ≤ 185))
    ∧ (classifyAngle a = "Reflex" ↔ (185 < a ∧ a ≤ 355))
    ∧ classifyAngle 0 = "Complete (360°)" ∧ classifyAngle 45 = "Acute"
    ∧ classifyAngle 90 = "Right" ∧ classifyAngle 95 = "Right"
    ∧ classifyAngle 96 = "Obtuse" ∧ classifyAngle 150 = "Obtuse"
    ∧ classifyAngle 180 = "Straight" ∧ classifyAngle 200 = "Reflex"
    ∧ classifyAngle 359 = "Complete (360°)" := by
  refine ⟨?_, ?_, ?_, ?_, ?_, ?_,
    by norm_num [classifyAngle], by norm_num [classifyAngle], by norm_num [classifyAngle],
    by norm_num [classifyAngle], by norm_num [classifyAngle], by norm_num [classifyAngle],
    by norm_num [classifyAngle], by norm_num [classifyAngle], by norm_num [classifyAngle]⟩ <;>
    (unfold classifyAngle; split_ifs with h1 h2 h3 h4 h5 <;> simp_all <;>
      try rcases h1 with h1 | h1) <;>
    intros <;> linarith

/-- Claim C6 (amended): `getAngleDifference a a = 0` for every `a`, the two
sweeps of distinct angles always sum to 360, and for inputs in `[0, 360)` the
result lies in `[0, 360)` and equals `a2 - a1` up to one added turn of 360. -/
theorem getAngleDifference_props :
    (∀ a : ℚ, getAngleDifference a a = 0)
    ∧ (∀ a1 a2 : ℚ, a1 ≠ a2 →
        getAngleDifference a1 a2 + getAngleDifference a2 a1 = 360)
    ∧ (∀ a1 a2 : ℚ, 0 ≤ a1 → a1 < 360 → 0 ≤ a2 → a2 < 360 →
        0 ≤ getAngleDifference a1 a2 ∧ getAngleDifference a1 a2 < 360
        ∧ (getAngleDifference a1 a2 = a2 - a1 ∨ getAngleDifference a1 a2 = a2 - a1 + 360)) := by
  refine ⟨?_, ?_, ?_⟩
  · intro a
    simp [getAngleDifference]
  · intro a1 a2 h
    unfold getAngleDifference
    dsimp only
    rcases lt_trichotomy a1 a2 with hlt | heq | hgt
    · rw [if_neg (by simp; linarith), if_pos (by linarith)]
      ring
    · exact absurd heq h
    · rw [if_pos (by linarith), if_neg (by simp; linarith)]
      ring
  · intro a1 a2 h1 h2 h3 h4
    unfold getAngleDifference
    dsimp only
    split_ifs with h <;> refine ⟨by linarith, by linarith, ?_⟩
    · right; ring
    · left; ring

/-- Witness for the amended claim C6 at concrete angles. -/
theorem getAngleDifference_props_witness :
    getAngleDifference 7 7 = 0
    ∧ getAngleDifference 10 30 + getAngleDifference 30 10 = 360
    ∧ (0 ≤ getAngleDifference 10 30 ∧ getAngleDifference 10 30 < 360
       ∧ (getAngleDifference 10 30 = 30 - 10 ∨ getAngleDifference 10 30 = 30 - 10 + 360)) :=
  ⟨getAngleDifference_props.1 7,
   getAngleDifference_props.2.1 10 30 (by norm_num),
   getAngleDifference_props.2.2 10 30 (by norm_num) (by norm_num) (by norm_num) (by norm_num)⟩

/-- Counterexample to claim C6 as stated: for an input angle outside `[0, 360)`
the result leaves `[0, 360)` (the source adds 360 at most once). -/
theorem getAngleDifference_range_cex :
    getAngleDifference 0 400 = 400 ∧ ¬ getAngleDifference 0 400 < 360 := by
  norm_num [getAngleDifference]

/-- Claim C2 (amended): the three gesture interpreters have a defined output on
the empty landmark list and on every list of at least 21 landmarks; shorter
non-empty lists can hit an out-of-bounds landmark access. -/
theorem gestureUtils_total (l : List Landmark) (h : l = [] ∨ 21 ≤ l.length) :
    (countFingers l).isSome = true ∧ (isPinching l).isSome = true
    ∧ (getIndexFingerTipCoordinates l).isSome = true := by
  rcases h with rfl | h21
  · exact ⟨rfl, rfl, rfl⟩
  refine ⟨?_, ?_, ?_⟩
  · rw [countFingers_eval h21]
    rfl
  · rw [isPinching_eval (get?_eq_some_getD (show 4 < l.length by omega))
      (get?_eq_some_getD (show 8 < l.length by omega))]
    rfl
  · unfold getIndexFingerTipCoordinates
    rw [if_neg (show ¬ l.length = 0 by omega),
      get?_eq_some_getD (show 8 < l.length by omega)]
    rfl

/-- Witness for the amended claim C2 on a concrete 21-landmark list. -/
theorem gestureUtils_total_witness :
    (countFingers (List.replicate 21 lmD)).isSome = true
    ∧ (isPinching (List.replicate 21 lmD)).isSome = true
    ∧ (getIndexFingerTipCoordinates (List.replicate 21 lmD)).isSome = true :=
  gestureUtils_total _ (Or.inr (by simp))

/-- Counterexample to claim C2 as stated: on a single-landmark (non-empty,
shorter than 21) list every one of the three interpreters performs an
out-of-bounds landmark access, modelled as `none`. -/
theorem gestureUtils_total_cex :
    countFingers [lmD] = none ∧ isPinching [lmD] = none
    ∧ getIndexFingerTipCoordinates [lmD] = none :=
  ⟨rfl, rfl, rfl⟩

/-- Claim C7: `countFingers` returns 0 on the empty hand; 5 when all four
non-thumb tips are strictly above their PIPs and the thumb is horizontally
separated as the handedness heuristic requires; 0 on a fully curled hand; and
every defined result is at most 5. -/
theorem countFingers_spec (l : List Landmark) (h21 : 21 ≤ l.length) :
    countFingers [] = some 0
    ∧ (((l.getD 8 lmD).y < (l.getD 6 lmD).y ∧ (l.getD 12 lmD).y < (l.getD 10 lmD).y
        ∧ (l.getD 16 lmD).y < (l.getD 14 lmD).y ∧ (l.getD 20 lmD).y < (l.getD 18 lmD).y)
       → ((l.getD 4 lmD).x < (l.getD 17 lmD).x → (l.getD 4 lmD).x < (l.getD 3 lmD).x)
       → (¬ (l.getD 4 lmD).x < (l.getD 17 lmD).x → (l.getD 3 lmD).x < (l.getD 4 lmD).x)
       → countFingers l = some 5)
    ∧ ((¬ (l.getD 8 lmD).y < (l.getD 6 lmD).y ∧ ¬ (l.getD 12 lmD).y < (l.getD 10 lmD).y
        ∧ ¬ (l.getD 16 lmD).y < (l.getD 14 lmD).y ∧ ¬ (l.getD 20 lmD).y < (l.getD 18 lmD).y)
       → ((l.getD 4 lmD).x < (l.getD 17 lmD).x → ¬ (l.getD 4 lmD).x < (l.getD 3 lmD).x)
       → (¬ (l.getD 4 lmD).x < (l.getD 17 lmD).x → ¬ (l.getD 3 lmD).x < (l.getD 4 lmD).x)
       → countFingers l = some 0)
    ∧ (∀ (l' : List Landmark) (k : ℕ), countFingers l' = some k → k ≤ 5) := by
  refine ⟨rfl, ?_, ?_, fun l' k hk => countFingers_le hk⟩
  · rintro ⟨u1, u2, u3, u4⟩ hr hl
    rw [countFingers_eval h21]
    by_cases hx : (l.getD 4 lmD).x < (l.getD 17 lmD).x
    · rw [if_pos hx, if_pos (hr hx), if_pos u1, if_pos u2, if_pos u3, if_pos u4]
    · rw [if_neg hx, if_pos (hl hx), if_pos u1, if_pos u2, if_pos u3, if_pos u4]
  · rintro ⟨d1, d2, d3, d4⟩ hr hl
    rw [countFingers_eval h21]
    by_cases hx : (l.getD 4 lmD).x < (l.getD 17 lmD).x
    · rw [if_pos hx, if_neg (hr hx), if_neg d1, if_neg d2, if_neg d3, if_neg d4]
    · rw [if_neg hx, if_neg (hl hx), if_neg d1, if_neg d2, if_neg d3, if_neg d4]

/-- Sample fully extended upright right hand: all four non-thumb tips above
their PIPs, thumb tip to the left of both the thumb IP and the pinky MCP. -/
def openHand : List Landmark :=
  [{ x := 1, y := 1, z := 0 }, { x := 1, y := 1, z := 0 }, { x := 1, y := 1, z := 0 },
   { x := 1, y := 1, z := 0 }, { x := 0, y := 1, z := 0 }, { x := 1, y := 1, z := 0 },
   { x := 1, y := 1, z := 0 }, { x := 1, y := 1, z := 0 }, { x := 1, y := 0, z := 0 },
   { x := 1, y := 1, z := 0 }, { x := 1, y := 1, z := 0 }, { x := 1, y := 1, z := 0 },
   { x := 1, y := 0, z := 0 }, { x := 1, y := 1, z := 0 }, { x := 1, y := 1, z := 0 },
   { x := 1, y := 1, z := 0 }, { x := 1, y := 0, z := 0 }, { x := 2, y := 1, z := 0 },
   { x := 1, y := 1, z := 0 }, { x := 1, y := 1, z := 0 }, { x := 1, y := 0, z := 0 }]

/-- Witness for claim C7: the sample open hand counts five fingers. -/
theorem countFingers_spec_witness : countFingers openHand = some 5 :=
  (countFingers_spec openHand (by decide)).2.1 (by decide) (by decide) (by decide)

/-- Claim C5: `isPinching` is false on the empty hand and, on a hand exposing
thumb-tip landmark 4 and index-tip landmark 8, is true exactly when the 2-D
Euclidean distance between them is strictly below 0.05; the result is antitone
in that distance, so it flips at most once as the distance grows. -/
theorem isPinching_spec (l l2 : List Landmark) (t i t2 i2 : Landmark)
    (ht : l.get? 4 = some t) (hi : l.get? 8 = some i)
    (ht2 : l2.get? 4 = some t2) (hi2 : l2.get? 8 = some i2) :
    isPinching [] = some false
    ∧ (isPinching l = some true ↔
        Real.sqrt (((t.x - i.x : ℚ) : ℝ) ^ 2 + ((t.y - i.y : ℚ) : ℝ) ^ 2) < 1 / 20)
    ∧ (isPinching l = some false ↔
        ¬ Real.sqrt (((t.x - i.x : ℚ) : ℝ) ^ 2 + ((t.y - i.y : ℚ) : ℝ) ^ 2) < 1 / 20)
    ∧ ((t.x - i.x) ^ 2 + (t.y - i.y) ^ 2 ≤ (t2.x - i2.x) ^ 2 + (t2.y - i2.y) ^ 2 →
        isPinching l2 = some true → isPinching l = some true) := by
  have hsq : ∀ a b : Landmark,
      Real.sqrt (((a.x - b.x : ℚ) : ℝ) ^ 2 + ((a.y - b.y : ℚ) : ℝ) ^ 2) < 1 / 20
        ↔ (a.x - b.x) ^ 2 + (a.y - b.y) ^ 2 < (1 / 20 : ℚ) ^ 2 := by
    intro a b
    have hc : (((a.x - b.x) ^ 2 + (a.y - b.y) ^ 2 : ℚ) : ℝ)
        = ((a.x - b.x : ℚ) : ℝ) ^ 2 + ((a.y - b.y : ℚ) : ℝ) ^ 2 := by
      push_cast
      ring
    rw [← hc, Real.sqrt_lt' (by norm_num)]
    rw [show ((1 : ℝ) / 20) ^ 2 = (((1 / 20 : ℚ) ^ 2 : ℚ) : ℝ) by norm_num]
    exact_mod_cast Iff.rfl
  refine ⟨rfl, ?_, ?_, ?_⟩
  · rw [isPinching_eval ht hi, hsq t i]
    simp
  · rw [isPinching_eval ht hi, hsq t i]
    simp
  · intro hle h2
    rw [isPinching_eval ht2 hi2] at h2
    simp only [Option.some_inj, decide_eq_true_eq] at h2
    rw [isPinching_eval ht hi]
    simp only [Option.some_inj, decide_eq_true_eq]
    exact lt_of_le_of_lt hle h2

/-- Witness for claim C5: a hand whose thumb tip and index tip coincide is
pinching. -/
theorem isPinching_spec_witness : isPinching (List.replicate 9 lmD) = some true :=
  (isPinching_spec (List.replicate 9 lmD) (List.replicate 9 lmD) lmD lmD lmD lmD
    rfl rfl rfl rfl).2.1.mpr (by norm_num [lmD, Real.sqrt_zero])

/-- Projection onto the two coordinates that the pinch decision reads. -/
def pxy (p : Landmark) : ℚ × ℚ := (p.x, p.y)

lemma isPinching_eq_aux (l : List Landmark) (h : ¬ l.length = 0) :
    isPinching l = ((l.get? 4).map pxy).bind (fun t => ((l.get? 8).map pxy).bind
      (fun i => some (decide ((t.1 - i.1) ^ 2 + (t.2 - i.2) ^ 2 < (1 / 20 : ℚ) ^ 2)))) := by
  unfold isPinching
  rw [if_neg h]
  cases l.get? 4 <;> cases l.get? 8 <;> rfl

/-- Claim C10: the pinch decision depends only on the `x` and `y` coordinates
of landmarks 4 and 8 — two non-empty landmark lists agreeing there (in
particular with arbitrary `z` depths and other landmarks) pinch identically. -/
theorem isPinching_xy_only (l1 l2 : List Landmark) (h1 : l1 ≠ []) (h2 : l2 ≠ [])
    (h4 : (l1.get? 4).map pxy = (l2.get? 4).map pxy)
    (h8 : (l1.get? 8).map pxy = (l2.get? 8).map pxy) :
    isPinching l1 = isPinching l2 := by
  have hl1 : ¬ l1.length = 0 := by simpa [List.length_eq_zero] using h1
  have hl2 : ¬ l2.length = 0 := by simpa [List.length_eq_zero] using h2
  rw [isPinching_eq_aux l1 hl1, isPinching_eq_aux l2 hl2, h4, h8]

/-- Witness for claim C10: changing every depth and appending landmarks leaves
the pinch decision unchanged. -/
theorem isPinching_xy_only_witness :
    isPinching (List.replicate 9 lmD) = isPinching (List.replicate 12 { x := 0, y := 0, z := 7 }) :=
  isPinching_xy_only _ _ (by decide) (by decide) rfl rfl

/-- Model of `isEven` (`mathHelpers.ts`). -/
def isEven (n : ℕ) : Bool := n % 2 == 0

/-- Model of `isOdd` (`mathHelpers.ts`). -/
def isOdd (n : ℕ) : Bool := n % 2 != 0

/-- Trial-division loop of `isPrime` (`for (let i = 2; i * i <= num; i++)`),
made structurally recursive with a fuel argument.  The loop exits once
`i * i > num`, after at most `√num` iterations, so starting fuel `num` (with
`num ≥ 2`) is never exhausted and the `fuel = 0` branch is unreachable. -/
def trialDivGo (num : ℕ) : ℕ → ℕ → Bool
  | _, 0 => true
  | i, fuel + 1 =>
      if i * i ≤ num then
        (if num % i = 0 then false else trialDivGo num (i + 1) fuel)
      else true

/-- Model of `isPrime` (`mathHelpers.ts`): `num <= 1` is not prime, otherwise
trial division up to the square root. -/
def isPrime (num : ℕ) : Bool :=
  if num ≤ 1 then false else trialDivGo num 2 num

/-- Perfect-square test used by `isFibonacci`; `Nat.sqrt` replaces the
floating `Math.sqrt`, which is exact on the small perfect squares involved. -/
def isPerfectSquare (x : ℕ) : Bool := Nat.sqrt x * Nat.sqrt x == x

/-- Model of `isFibonacci` (`mathHelpers.ts`): the `n < 0` guard is vacuous
over `ℕ`; `5n² - 4` truncates at `n = 0` only, where the first disjunct
already decides the result exactly as the source does. -/
def isFibonacci (n : ℕ) : Bool :=
  isPerfectSquare (5 * n * n + 4) || isPerfectSquare (5 * n * n - 4)

/-- Model of the `NumberType` union of `types.ts`. -/
inductive NumberType
  | even
  | odd
  | prime
  | fibonacci
deriving DecidableEq

/-- Model of the `numberCheckers` record (`mathHelpers.ts`). -/
def numberCheckers : NumberType → ℕ → Bool
  | .even => isEven
  | .odd => isOdd
  | .prime => isPrime
  | .fibonacci => isFibonacci

/-- Model of the `NumberPickerProblem` interface of `types.ts`. -/
structure NumberPickerProblem where
  numbers : List ℕ
  type : NumberType
  correctAnswer : ℕ
deriving DecidableEq

/-- One `Math.floor(Math.random() * 20) + 1` draw, mapped from a raw natural
into the source's range `[1, 20]`. -/
def drawNum (d : ℕ) : ℕ := d % 20 + 1

/-- First loop of `generateNumberPickerProblem`: draw until the checker
accepts; `none` models draws running out (the JS loop would keep drawing). -/
def findCorrectAnswer (t : NumberType) : List ℕ → Option ℕ
  | [] => none
  | d :: rest =>
      if numberCheckers t (drawNum d) then some (drawNum d) else findCorrectAnswer t rest

/-- Second loop of `generateNumberPickerProblem`: add distinct non-matching
draws to the set (insertion-ordered, as a JS `Set`) until it holds 5 numbers. -/
def fillIncorrect (t : NumberType) : List ℕ → List ℕ → List ℕ
  | [], acc => acc
  | d :: rest, acc =>
      if 5 ≤ acc.length then acc
      else if numberCheckers t (drawNum d) = false ∧ drawNum d ∉ acc then
        fillIncorrect t rest (acc ++ [drawNum d])
      else fillIncorrect t rest acc

/-- Model of `generateNumberPickerProblem` (`mathHelpers.ts`).  The random
draws are passed as streams; `shuffle` abstracts the random-comparator
`sort`, which permutes the produced set.  `none` models a run whose finite
draw streams were exhausted before the loops finished. -/
def generateNumberPickerProblem (t : NumberType) (answerDraws fillDraws : List ℕ)
    (shuffle : List ℕ → List ℕ) : Option NumberPickerProblem :=
  match findCorrectAnswer t answerDraws with
  | none => none
  | some ans =>
      let nums := fillIncorrect t fillDraws [ans]
      if nums.length = 5 then some ⟨shuffle nums, t, ans⟩ else none

lemma findCorrectAnswer_spec {t : NumberType} {ds : List ℕ} {a : ℕ}
    (h : findCorrectAnswer t ds = some a) :
    numberCheckers t a = true ∧ 1 ≤ a ∧ a ≤ 20 := by
  induction ds with
  | nil => simp [findCorrectAnswer] at h
  | cons d rest ih =>
    rw [findCorrectAnswer] at h
    split_ifs at h with hc
    · cases h
      exact ⟨hc, by simp [drawNum], by simp [drawNum]; omega⟩
    · exact ih h

lemma fillIncorrect_spec (t : NumberType) :
    ∀ (ds acc : List ℕ), acc.Nodup → (∀ n ∈ acc, 1 ≤ n ∧ n ≤ 20) →
      (fillIncorrect t ds acc).Nodup
      ∧ (∀ n ∈ fillIncorrect t ds acc, 1 ≤ n ∧ n ≤ 20)
      ∧ (∀ n ∈ fillIncorrect t ds acc, n ∈ acc ∨ numberCheckers t n = false)
      ∧ (∀ n ∈ acc, n ∈ fillIncorrect t ds acc) := by
  intro ds
  induction ds with
  | nil =>
    intro acc h1 h2
    rw [fillIncorrect]
    exact ⟨h1, h2, fun n hn => Or.inl hn, fun n hn => hn⟩
  | cons d rest ih =>
    intro acc h1 h2
    rw [fillIncorrect]
    split_ifs with hlen hnew
    · exact ⟨h1, h2, fun n hn => Or.inl hn, fun n hn => hn⟩
    · obtain ⟨hc, hmem⟩ := hnew
      have hacc' : (acc ++ [drawNum d]).Nodup := by
        simp [List.nodup_append, h1, hmem]
      have hrange' : ∀ n ∈ acc ++ [drawNum d], 1 ≤ n ∧ n ≤ 20 := by
        intro n hn
        rcases List.mem_append.mp hn with hn | hn
        · exact h2 n hn
        · simp at hn
          subst hn
          exact ⟨by simp [drawNum], by simp [drawNum]; omega⟩
      obtain ⟨r1, r2, r3, r4⟩ := ih (acc ++ [drawNum d]) hacc' hrange'
      refine ⟨r1, r2, ?_, ?_⟩
      · intro n hn
        rcases r3 n hn with hmem' | hch
        · rcases List.mem_append.mp hmem' with hmem' | hmem'
          · exact Or.inl hmem'
          · simp at hmem'
            subst hmem'
            exact Or.inr hc
        · exact Or.inr hch
      · intro n hn
        exact r4 n (List.mem_append_left _ hn)
    · exact ih acc h1 h2

lemma isPrime_iff_prime {n : ℕ} (h : n ≤ 20) : isPrime n = true ↔ Nat.Prime n := by
  interval_cases n <;> decide

/-- Claim C9: every problem produced by the NumberPicker generator for
`type = prime` holds exactly 5 distinct numbers in `[1, 20]`, of which
precisely one — the `correctAnswer` — is prime. -/
theorem generateNumberPickerProblem_prime_spec
    (answerDraws fillDraws : List ℕ) (shuffle : List ℕ → List ℕ)
    (hshuffle : ∀ l, (shuffle l).Perm l)
    (p : NumberPickerProblem)
    (hgen : generateNumberPickerProblem .prime answerDraws fillDraws shuffle = some p) :
    p.numbers.length = 5
    ∧ p.numbers.Nodup
    ∧ (∀ n ∈ p.numbers, 1 ≤ n ∧ n ≤ 20)
    ∧ p.correctAnswer ∈ p.numbers
    ∧ Nat.Prime p.correctAnswer
    ∧ (∀ n ∈ p.numbers, n ≠ p.correctAnswer → ¬ Nat.Prime n) := by
  unfold generateNumberPickerProblem at hgen
  cases hfa : findCorrectAnswer .prime answerDraws with
  | none =>
    rw [hfa] at hgen
    simp at hgen
  | some ans =>
    rw [hfa] at hgen
    dsimp only at hgen
    split_ifs at hgen with hlen
    obtain ⟨hc, ha1, ha2⟩ := findCorrectAnswer_spec hfa
    obtain ⟨r1, r2, r3, r4⟩ := fillIncorrect_spec .prime fillDraws [ans]
      (by simp)
      (by
        intro n hn
        simp at hn
        subst hn
        exact ⟨ha1, ha2⟩)
    simp only [Option.some_inj] at hgen
    subst hgen
    have hperm := hshuffle (fillIncorrect .prime fillDraws [ans])
    refine ⟨?_, ?_, ?_, ?_, ?_, ?_⟩
    · rw [hperm.length_eq]
      exact hlen
    · exact hperm.nodup_iff.mpr r1
    · intro n hn
      exact r2 n (hperm.mem_iff.mp hn)
    · exact hperm.mem_iff.mpr (r4 ans (by simp))
    · exact (isPrime_iff_prime ha2).mp hc
    · intro n hn hne
      rcases r3 n (hperm.mem_iff.mp hn) with hmem | hch
      · simp at hmem
        exact absurd hmem hne
      · obtain ⟨hn1, hn2⟩ := r2 n (hperm.mem_iff.mp hn)
        intro hpn
        rw [← isPrime_iff_prime hn2] at hpn
        simp [numberCheckers] at hch
        rw [hch] at hpn
        cases hpn

/-- Witness for claim C9: a concrete run of the generator — answer draw 2
(prime), filler draws 1, 4, 6, 8 — with the identity shuffle. -/
theorem generateNumberPickerProblem_prime_witness :
    (⟨[2, 1, 4, 6, 8], NumberType.prime, 2⟩ : NumberPickerProblem).numbers.length = 5
    ∧ (⟨[2, 1, 4, 6, 8], NumberType.prime, 2⟩ : NumberPickerProblem).numbers.Nodup
    ∧ (∀ n ∈ (⟨[2, 1, 4, 6, 8], NumberType.prime, 2⟩ : NumberPickerProblem).numbers,
        1 ≤ n ∧ n ≤ 20)
    ∧ (⟨[2, 1, 4, 6, 8], NumberType.prime, 2⟩ : NumberPickerProblem).correctAnswer
        ∈ (⟨[2, 1, 4, 6, 8], NumberType.prime, 2⟩ : NumberPickerProblem).numbers
    ∧ Nat.Prime (⟨[2, 1, 4, 6, 8], NumberType.prime, 2⟩ : NumberPickerProblem).correctAnswer
    ∧ (∀ n ∈ (⟨[2, 1, 4, 6, 8], NumberType.prime, 2⟩ : NumberPickerProblem).numbers,
        n ≠ (⟨[2, 1, 4, 6, 8], NumberType.prime, 2⟩ : NumberPickerProblem).correctAnswer
        → ¬ Nat.Prime n) :=
  generateNumberPickerProblem_prime_spec [1] [0, 3, 5, 7] id (fun l => List.Perm.refl l) _ rfl

/-- Model of the `ArithmeticProblem` interface of `types.ts`. -/
structure ArithmeticProblem where
  num1 : ℕ
  num2 : ℕ
  answer : ℕ
deriving DecidableEq

/-- Model of `generateArithmeticProblem` (`mathHelpers.ts`): two draws in
`[1, 5]` and their sum. -/
def generateArithmeticProblem (d1 d2 : ℕ) : ArithmeticProblem :=
  { num1 := d1 % 5 + 1, num2 := d2 % 5 + 1, answer := (d1 % 5 + 1) + (d2 % 5 + 1) }

/-- View state of the `ArithmeticGame` component: current problem, feedback
message, score, and the `lastDetectionTime` ref. -/
structure ArithState where
  problem : ArithmeticProblem
  feedback : Option String
  score : ℤ
  lastDetectionTime : ℤ
deriving DecidableEq

/-- Deferred actions scheduled with `setTimeout` by the arithmetic handler. -/
inductive ArithEvent
  | scheduleNewProblem
  | scheduleFeedbackClear
deriving DecidableEq

/-- The 2000 ms `detectionCooldown` of the `ArithmeticGame` component. -/
def detectionCooldown : ℤ := 2000

/-- Sum of `countFingers` over all detected hands, as accumulated by the
`for` loop of the arithmetic `onResults`; `none` if any hand threw. -/
def sumFingers : List (List Landmark) → Option ℕ
  | [] => some 0
  | h :: t => do
      let c ← countFingers h
      let r ← sumFingers t
      pure (c + r)

/-- Model of the `ArithmeticGame` `onResults` callback (`part_001`): with no
detected hands nothing happens; otherwise the finger counts are summed, the
cooldown and feedback gates are checked, and a positive sum is compared to the
problem's answer, either scoring and scheduling a new problem or showing the
wrong-count feedback. -/
def arithmeticOnResults (s : ArithState) (hands : List (List Landmark)) (now : ℤ) :
    Option (ArithState × Option ArithEvent) :=
  match hands with
  | [] => some (s, none)
  | _ :: _ => do
      let total ← sumFingers hands
      if now - s.lastDetectionTime < detectionCooldown ∨ s.feedback.isSome then
        pure (s, none)
      else if 0 < total then
        if total = s.problem.answer then
          pure ({ s with feedback := some "Correct!", score := s.score + 10, lastDetectionTime := now },
            some .scheduleNewProblem)
        else
          pure ({ s with feedback := some ("Not quite! That" ++ "\x27" ++ "s " ++ toString total ++ "."), lastDetectionTime := now },
            some .scheduleFeedbackClear)
      else pure (s, none)

/-- Claim C8: on a frame with at least one hand, outside the cooldown, with no
feedback showing and with a defined finger sum, a sum equal to the (positive)
answer adds 10 and schedules a new problem; any other positive sum sets the
wrong-count feedback and leaves problem and score unchanged. -/
theorem arithmeticOnResults_spec (s : ArithState) (hands : List (List Landmark))
    (now : ℤ) (k : ℕ) (s' : ArithState) (ev : Option ArithEvent)
    (hne : hands ≠ [])
    (hsum : sumFingers hands = some k)
    (hcool : ¬ now - s.lastDetectionTime < detectionCooldown)
    (hfb : s.feedback = none)
    (hpos : 0 < s.problem.answer)
    (hstep : arithmeticOnResults s hands now = some (s', ev)) :
    (k = s.problem.answer →
      s'.score = s.score + 10 ∧ ev = some ArithEvent.scheduleNewProblem
      ∧ s'.problem = s.problem)
    ∧ (k ≠ s.problem.answer → 0 < k →
      s'.feedback = some ("Not quite! That" ++ "\x27" ++ "s " ++ toString k ++ ".")
      ∧ s'.score = s.score ∧ s'.problem = s.problem
      ∧ ev = some ArithEvent.scheduleFeedbackClear) := by
  match hands, hne with
  | h :: t, _ =>
    rw [arithmeticOnResults, hsum] at hstep
    simp only [Option.bind_eq_bind', Option.some_bind'] at hstep
    rw [if_neg (by simp [hcool, hfb])] at hstep
    constructor
    · intro hk
      rw [if_pos (by omega), if_pos hk] at hstep
      simp only [Option.pure_def, Option.some_bind, Option.some_inj, Prod.mk.injEq] at hstep
      obtain ⟨hs, he⟩ := hstep
      subst hs
      exact ⟨rfl, he ▸ rfl, rfl⟩
    · intro hk hkpos
      rw [if_pos hkpos, if_neg hk] at hstep
      simp only [Option.pure_def, Option.some_bind, Option.some_inj, Prod.mk.injEq] at hstep
      obtain ⟨hs, he⟩ := hstep
      subst hs
      exact ⟨rfl, rfl, rfl, he ▸ rfl⟩

/-- Witness for claim C8: problem 2 + 3, one open hand showing five fingers,
processed outside the cooldown with no feedback showing. -/
theorem arithmeticOnResults_spec_witness :
    ((5 : ℕ) = (generateArithmeticProblem 1 2).answer →
      ({ problem := generateArithmeticProblem 1 2, feedback := some "Correct!",
         score := 10, lastDetectionTime := 5000 } : ArithState).score
        = ({ problem := generateArithmeticProblem 1 2, feedback := none,
             score := 0, lastDetectionTime := 0 } : ArithState).score + 10
      ∧ (some ArithEvent.scheduleNewProblem : Option ArithEvent)
          = some ArithEvent.scheduleNewProblem
      ∧ ({ problem := generateArithmeticProblem 1 2, feedback := some "Correct!",
           score := 10, lastDetectionTime := 5000 } : ArithState).problem
          = generateArithmeticProblem 1 2)
    ∧ ((5 : ℕ) ≠ (generateArithmeticProblem 1 2).answer → 0 < (5 : ℕ) →
      ({ problem := generateArithmeticProblem 1 2, feedback := some "Correct!",
         score := 10, lastDetectionTime := 5000 } : ArithState).feedback
        = some ("Not quite! That" ++ "\x27" ++ "s " ++ toString (5 : ℕ) ++ ".")
      ∧ ({ problem := generateArithmeticProblem 1 2, feedback := some "Correct!",
           score := 10, lastDetectionTime := 5000 } : ArithState).score
          = ({ problem := generateArithmeticProblem 1 2, feedback := none,
               score := 0, lastDetectionTime := 0 } : ArithState).score
      ∧ ({ problem := generateArithmeticProblem 1 2, feedback := some "Correct!",
           score := 10, lastDetectionTime := 5000 } : ArithState).problem
          = generateArithmeticProblem 1 2
      ∧ (some ArithEvent.scheduleNewProblem : Option ArithEvent)
          = some ArithEvent.scheduleFeedbackClear) :=
  arithmeticOnResults_spec
    { problem := generateArithmeticProblem 1 2, feedback := none,
      score := 0, lastDetectionTime := 0 }
    [openHand] 5000 5
    { problem := generateArithmeticProblem 1 2, feedback := some "Correct!",
      score := 10, lastDetectionTime := 5000 }
    (some ArithEvent.scheduleNewProblem)
    (by simp)
    (by decide)
    (by norm_num [detectionCooldown])
    rfl
    (by norm_num [generateArithmeticProblem])
    (by decide)

/-- Model of the `DraggableNumber` interface of `types.ts`. -/
structure DraggableNumber where
  id : String
  value : ℕ
  x : ℚ
  y : ℚ
  isDragging : Bool
deriving DecidableEq

/-- Model of the `'even' | 'odd'` target-type union of `RightBoxLevel`. -/
inductive ParityType
  | even
  | odd
deriving DecidableEq

/-- Model of the `RightBoxLevel` interface of `types.ts`. -/
structure RightBoxLevel where
  targetType : ParityType
  numbers : List DraggableNumber
deriving DecidableEq

/-- One loop iteration's random draws inside `generateRightBoxLevel`: the
value draw (`Math.random()*50`), the id suffix produced by
`Math.random().toString(36).substr(2,9)` (an arbitrary string, with no
uniqueness guarantee), and the raw `[0,1)` position draws. -/
structure RBGenDraw where
  valDraw : ℕ
  idDraw : String
  xDraw : ℚ
  yDraw : ℚ
deriving DecidableEq

/-- Generation loop of `generateRightBoxLevel` (`mathHelpers.ts`): for each
draw whose value `Math.floor(rand*50)+1` is fresh, push a non-dragging number
spawned at `x ∈ [0.05, 0.65)`, `y ∈ [0.2, 0.8)`; stop at `count` numbers.
Running out of draws models a loop that has not finished. -/
def generateRightBoxLevelGo (count : ℕ) :
    List RBGenDraw → List DraggableNumber → List ℕ → List DraggableNumber
  | [], acc, _ => acc
  | d :: rest, acc, used =>
      if count ≤ acc.length then acc
      else
        let val := d.valDraw % 50 + 1
        if val ∈ used then generateRightBoxLevelGo count rest acc used
        else
          generateRightBoxLevelGo count rest
            (acc ++ [{ id := "num-" ++ d.idDraw, value := val, x := d.xDraw * (3/5) + 1/20, y := d.yDraw * (3/5) + 1/5, isDragging := false }])
            (used ++ [val])

/-- Model of `generateRightBoxLevel` (`mathHelpers.ts`) with its default
`count = 6`: the target type is drawn from `['even','odd']` and six
distinct-valued draggable numbers are spawned. -/
def generateRightBoxLevel (typeDraw : ℕ) (draws : List RBGenDraw) : Option RightBoxLevel :=
  let targetType := if typeDraw % 2 = 0 then ParityType.even else ParityType.odd
  let nums := generateRightBoxLevelGo 6 draws [] []
  if nums.length = 6 then some { targetType := targetType, numbers := nums } else none

/-- Interaction state of the `RightBoxGame` component: the level data plus
the `gameStateRef` fields (`isPinching`, `draggedId`), the score, the
feedback and the cursor. -/
structure RBState where
  targetType : ParityType
  numbers : List DraggableNumber
  score : ℤ
  feedback : Option String
  isPinching : Bool
  draggedId : Option String
  cursor : Option (ℚ × ℚ)
deriving DecidableEq

/-- Deferred actions scheduled with `setTimeout` by the RightBox handlers. -/
inductive RBEvent
  | scheduleNewLevel
  | scheduleFeedbackClear
deriving DecidableEq

/-- Initial component state for a freshly generated level. -/
def rbInit (lv : RightBoxLevel) : RBState :=
  { targetType := lv.targetType, numbers := lv.numbers, score := 0, feedback := none,
    isPinching := false, draggedId := none, cursor := none }

/-- Parity check of `handleDrop` (`part_001`): the dropped value matches the
level's target type (`targetType === 'even' ? v % 2 === 0 : v % 2 !== 0`). -/
def isCorrectType (t : ParityType) (v : ℕ) : Bool :=
  match t with
  | ParityType.even => v % 2 == 0
  | ParityType.odd => v % 2 != 0

/-- Model of `handleDrop` (`part_001`): matching parity removes the number and
adds 10 (scheduling a new level when the list empties); otherwise the score
drops by 5, floored at 0, and the number is relocated to a fresh random spawn
position on the left with `isDragging` cleared.  `rx, ry` are the `[0,1)`
relocation draws. -/
def handleDrop (s : RBState) (num : DraggableNumber) (rx ry : ℚ) : RBState × RBEvent :=
  if isCorrectType s.targetType num.value then
    let newNumbers := s.numbers.filter (fun n => !(n.id == num.id))
    if newNumbers.length = 0 then
      ({ s with feedback := some "Correct!", score := s.score + 10, numbers := newNumbers }, RBEvent.scheduleNewLevel)
    else
      ({ s with feedback := some "Correct!", score := s.score + 10, numbers := newNumbers }, RBEvent.scheduleFeedbackClear)
  else
    ({ s with feedback := some "Wrong Box!", score := max 0 (s.score - 5), numbers := s.numbers.map (fun n => if n.id = num.id then { n with x := rx * (3/5) + 1/20, y := ry * (3/5) + 1/5, isDragging := false } else n) }, RBEvent.scheduleFeedbackClear)

/-- A frame delivered to the RightBox `onResults`: the detected hands plus the
`[0,1)` relocation draws consumed if a wrong drop happens this frame. -/
structure RBFrame where
  hands : List (List Landmark)
  rx : ℚ
  ry : ℚ
deriving DecidableEq

/-- Model of the `RightBoxGame` `onResults` callback (`part_001`).  An empty
hands list clears the cursor and force-ends any drag without evaluating the
drop zone; otherwise the first hand drives the cursor `(1 - tip.x, tip.y)`;
a pinch rising edge hit-tests the numbers (squared distance below 0.005) and
starts a drag; a held pinch moves the dragged number to the cursor; a release
while over `x > 0.75` evaluates the drop via `handleDrop`, and elsewhere just
clears the drag mark.  Outer `none` models a thrown landmark access. -/
def rightBoxOnResults (s : RBState) (f : RBFrame) : Option (RBState × Option RBEvent) :=
  match f.hands with
  | [] =>
      match s.draggedId with
      | none => some ({ s with cursor := none, isPinching := false }, none)
      | some i =>
          match s.numbers.find? (fun n => n.id == i) with
          | none => some ({ s with cursor := none, isPinching := false }, none)
          | some _ =>
              some ({ s with cursor := none, isPinching := false, numbers := s.numbers.map (fun n => if n.id = i then { n with isDragging := false } else n), draggedId := none }, none)
  | hand :: _ =>
      match getIndexFingerTipCoordinates hand with
      | none => none
      | some none => some (s, none)
      | some (some tip) =>
          let cx := 1 - tip.1
          let cy := tip.2
          match isPinching hand with
          | none => none
          | some pinching =>
              if pinching then
                if s.isPinching = false then
                  match s.numbers.find? (fun n => decide ((n.x - cx) * (n.x - cx) + (n.y - cy) * (n.y - cy) < (1/200 : ℚ))) with
                  | some hit =>
                      some ({ s with cursor := some (cx, cy), isPinching := true, draggedId := some hit.id, numbers := s.numbers.map (fun n => if n.id = hit.id then { n with isDragging := true } else n) }, none)
                  | none => some ({ s with cursor := some (cx, cy), isPinching := true }, none)
                else
                  match s.draggedId with
                  | some i =>
                      some ({ s with cursor := some (cx, cy), isPinching := true, numbers := s.numbers.map (fun n => if n.id = i then { n with x := cx, y := cy } else n) }, none)
                  | none => some ({ s with cursor := some (cx, cy), isPinching := true }, none)
              else
                if s.isPinching = true then
                  match s.draggedId with
                  | some i =>
                      match s.numbers.find? (fun n => n.id == i) with
                      | some dropped =>
                          if dropped.x > 3/4 then
                            let r := handleDrop { s with cursor := some (cx, cy), isPinching := false, draggedId := none } dropped f.rx f.ry
                            some (r.1, some r.2)
                          else
                            some ({ s with cursor := some (cx, cy), isPinching := false, draggedId := none, numbers := s.numbers.map (fun n => if n.id = i then { n with isDragging := false } else n) }, none)
                      | none => some ({ s with cursor := some (cx, cy), isPinching := false, draggedId := none }, none)
                  | none => some ({ s with cursor := some (cx, cy), isPinching := false }, none)
                else
                  some ({ s with cursor := some (cx, cy), isPinching := false }, none)

/-- One processed frame relates a state to its successor. -/
def RBStepRel (s s' : RBState) : Prop :=
  ∃ f ev, rightBoxOnResults s f = some (s', ev)

/-- States reachable from a freshly generated level by processed frames. -/
def RBReach (lv : RightBoxLevel) (s : RBState) : Prop :=
  Relation.ReflTransGen RBStepRel (rbInit lv) s

/-- Drag-lifecycle invariant maintained by every processed frame: item ids
are distinct, an item is marked dragging exactly when its id is the recorded
dragged id, a recorded dragged id always names a present item, and no drag
survives a non-pinching frame. -/
def RBInv (s : RBState) : Prop :=
  (s.numbers.map (fun n => n.id)).Nodup
  ∧ (∀ n ∈ s.numbers, n.isDragging = true ↔ s.draggedId = some n.id)
  ∧ (∀ i, s.draggedId = some i → ∃ n ∈ s.numbers, n.id = i)
  ∧ (s.isPinching = false → s.draggedId = none)

lemma unmark_eq_self {n : DraggableNumber} (h : n.isDragging = false) :
    ({ n with isDragging := false } : DraggableNumber) = n := by
  cases n
  simp_all

lemma map_ids_eq {l : List DraggableNumber} {g : DraggableNumber → DraggableNumber}
    (hg : ∀ n, (g n).id = n.id) :
    (l.map g).map (fun n => n.id) = l.map (fun n => n.id) := by
  induction l with
  | nil => rfl
  | cons a t ih => simp [hg a, ih]

lemma countP_dragging_le_one {i : String} :
    ∀ {l : List DraggableNumber}, (l.map (fun n => n.id)).Nodup →
      (∀ n ∈ l, n.isDragging = true ↔ i = n.id) →
      l.countP (fun n => n.isDragging) ≤ 1 := by
  intro l
  induction l with
  | nil => intro _ _; simp
  | cons a t ih =>
    intro hids h
    simp only [List.map_cons, List.nodup_cons, List.mem_map] at hids
    obtain ⟨ha, ht⟩ := hids
    rw [List.countP_cons]
    by_cases hd : a.isDragging = true
    · have hai : i = a.id := (h a (by simp)).mp hd
      have hzero : t.countP (fun n => n.isDragging) = 0 := by
        rw [List.countP_eq_zero]
        intro b hb
        simp only [Bool.not_eq_true]
        by_contra hbd
        have hbi : i = b.id := (h b (List.mem_cons_of_mem a hb)).mp (by simpa using hbd)
        exact ha ⟨b, hb, by rw [← hbi, ← hai]⟩
      simp [hd, hzero]
    · have hrec := ih ht (fun n hn => h n (List.mem_cons_of_mem a hn))
      simp only [hd]
      simpa using hrec

/-- Invariant of any state satisfying `RBInv`: at most one item is marked
dragging. -/
lemma RBInv.countP_le_one {s : RBState} (h : RBInv s) :
    s.numbers.countP (fun n => n.isDragging) ≤ 1 := by
  obtain ⟨h1, h2, h3, h4⟩ := h
  rcases hd : s.draggedId with _ | i
  · have : s.numbers.countP (fun n => n.isDragging) = 0 := by
      rw [List.countP_eq_zero]
      intro n hn
      simp only [Bool.not_eq_true]
      by_contra hb
      have := (h2 n hn).mp (by simpa using hb)
      rw [hd] at this
      cases this
    omega
  · refine @countP_dragging_le_one i s.numbers h1 (fun n hn => ?_)
    rw [h2 n hn, hd]
    simp [eq_comm]

lemma find?_id_isSome {l : List DraggableNumber} {i : String}
    (h : ∃ n ∈ l, n.id = i) : (l.find? (fun n => n.id == i)).isSome := by
  obtain ⟨n, hn, hni⟩ := h
  exact List.find?_isSome.mpr ⟨n, hn, by simp [hni]⟩

/-- Preservation of the drag-lifecycle invariant by one processed frame. -/
lemma rbStep_inv {s s' : RBState} {f : RBFrame} {ev : Option RBEvent}
    (hinv : RBInv s) (hstep : rightBoxOnResults s f = some (s', ev)) : RBInv s' := by
  obtain ⟨h1, h2, h3, h4⟩ := hinv
  unfold rightBoxOnResults at hstep
  rcases hf : f.hands with _ | ⟨hand, rest⟩ <;> rw [hf] at hstep <;> dsimp only at hstep
  · -- no hands detected
    rcases hd : s.draggedId with _ | i <;> rw [hd] at hstep <;> dsimp only at hstep
    · simp only [Option.some_inj, Prod.mk.injEq] at hstep
      obtain ⟨hs, _⟩ := hstep
      subst hs
      refine ⟨h1, ?_, ?_, fun _ => rfl⟩
      · intro n hn
        rw [h2 n hn, hd]
      · intro j hj
        cases hj
    · rcases hfind : s.numbers.find? (fun n => n.id == i) with _ | found <;>
        rw [hfind] at hstep <;> dsimp only at hstep
      · exfalso
        have hsome := find?_id_isSome (h3 i hd)
        rw [hfind] at hsome
        cases hsome
      · simp only [Option.some_inj, Prod.mk.injEq] at hstep
        obtain ⟨hs, _⟩ := hstep
        subst hs
        refine ⟨?_, ?_, ?_, fun _ => rfl⟩
        · rw [map_ids_eq (fun n => by split_ifs <;> rfl)]
          exact h1
        · intro n' hn'
          simp only [List.mem_map] at hn'
          obtain ⟨n, hn, rfl⟩ := hn'
          refine iff_of_false ?_ (by simp)
          by_cases hni : n.id = i
          · rw [if_pos hni]
            simp
          · rw [if_neg hni]
            intro hdrag
            have hcontra := (h2 n hn).mp hdrag
            rw [hd] at hcontra
            exact hni (Option.some_inj.mp hcontra).symm
        · intro j hj
          cases hj
  · -- at least one hand
    rcases htipo : getIndexFingerTipCoordinates hand with _ | tipOpt <;>
      rw [htipo] at hstep <;> (try dsimp only at hstep)
    · cases hstep
    rcases tipOpt with _ | tip <;> (try dsimp only at hstep)
    · simp only [Option.some_inj, Prod.mk.injEq] at hstep
      obtain ⟨hs, _⟩ := hstep
      subst hs
      exact ⟨h1, h2, h3, h4⟩
    · rcases hp : isPinching hand with _ | pinching <;> rw [hp] at hstep <;> dsimp only at hstep
      · cases hstep
      rcases pinching with _ | _
      · -- not pinching this frame
        rw [if_neg (by simp)] at hstep
        by_cases hsp : s.isPinching = true
        · rw [if_pos hsp] at hstep
          rcases hd : s.draggedId with _ | i <;> rw [hd] at hstep <;> dsimp only at hstep
          · simp only [Option.some_inj, Prod.mk.injEq] at hstep
            obtain ⟨hs, _⟩ := hstep
            subst hs
            refine ⟨h1, ?_, ?_, fun _ => rfl⟩
            · intro n hn
              rw [h2 n hn, hd]
            · intro j hj
              cases hj
          · rcases hfind : s.numbers.find? (fun n => n.id == i) with _ | dropped <;>
              rw [hfind] at hstep <;> dsimp only at hstep
            · exfalso
              have hsome := find?_id_isSome (h3 i hd)
              rw [hfind] at hsome
              cases hsome
            have hdi : dropped.id = i := by
              have := List.find?_some hfind
              simpa using this
            by_cases hx : dropped.x > 3/4
            · rw [if_pos hx] at hstep
              unfold handleDrop at hstep
              dsimp only at hstep
              split_ifs at hstep with hty hlen <;>
                (simp only [Option.some_inj, Prod.mk.injEq] at hstep
                 obtain ⟨hs, _⟩ := hstep
                 subst hs)
              · -- correct type, list emptied
                refine ⟨?_, ?_, ?_, fun _ => rfl⟩
                · exact h1.sublist (List.Sublist.map _ (List.filter_sublist _))
                · intro n hn
                  refine iff_of_false ?_ (by simp)
                  have hmem := List.mem_of_mem_filter hn
                  have hkeep := List.of_mem_filter hn
                  intro hdrag
                  have hcontra := (h2 n hmem).mp hdrag
                  rw [hd] at hcontra
                  have hni : n.id = i := (Option.some_inj.mp hcontra).symm
                  simp only [Bool.not_eq_eq_eq_not, Bool.not_true, beq_eq_false_iff_ne, ne_eq] at hkeep
                  exact hkeep (by rw [hni, hdi])
                · intro j hj
                  cases hj
              · -- correct type, list non-empty
                refine ⟨?_, ?_, ?_, fun _ => rfl⟩
                · exact h1.sublist (List.Sublist.map _ (List.filter_sublist _))
                · intro n hn
                  refine iff_of_false ?_ (by simp)
                  have hmem := List.mem_of_mem_filter hn
                  have hkeep := List.of_mem_filter hn
                  intro hdrag
                  have hcontra := (h2 n hmem).mp hdrag
                  rw [hd] at hcontra
                  have hni : n.id = i := (Option.some_inj.mp hcontra).symm
                  simp only [Bool.not_eq_eq_eq_not, Bool.not_true, beq_eq_false_iff_ne, ne_eq] at hkeep
                  exact hkeep (by rw [hni, hdi])
                · intro j hj
                  cases hj
              · -- wrong type: relocation
                refine ⟨?_, ?_, ?_, fun _ => rfl⟩
                · rw [map_ids_eq (fun n => by split_ifs <;> rfl)]
                  exact h1
                · intro n' hn'
                  simp only [List.mem_map] at hn'
                  obtain ⟨n, hn, rfl⟩ := hn'
                  refine iff_of_false ?_ (by simp)
                  by_cases hni : n.id = dropped.id
                  · rw [if_pos hni]
                    simp
                  · rw [if_neg hni]
                    intro hdrag
                    have hcontra := (h2 n hn).mp hdrag
                    rw [hd] at hcontra
                    exact hni (by rw [(Option.some_inj.mp hcontra).symm, hdi])
                · intro j hj
                  cases hj
            · rw [if_neg hx] at hstep
              simp only [Option.some_inj, Prod.mk.injEq] at hstep
              obtain ⟨hs, _⟩ := hstep
              subst hs
              refine ⟨?_, ?_, ?_, fun _ => rfl⟩
              · rw [map_ids_eq (fun n => by split_ifs <;> rfl)]
                exact h1
              · intro n' hn'
                simp only [List.mem_map] at hn'
                obtain ⟨n, hn, rfl⟩ := hn'
                refine iff_of_false ?_ (by simp)
                by_cases hni : n.id = i
                · rw [if_pos hni]
                  simp
                · rw [if_neg hni]
                  intro hdrag
                  have hcontra := (h2 n hn).mp hdrag
                  rw [hd] at hcontra
                  exact hni (Option.some_inj.mp hcontra).symm
              · intro j hj
                cases hj
        · rw [if_neg hsp] at hstep
          simp only [Option.some_inj, Prod.mk.injEq] at hstep
          obtain ⟨hs, _⟩ := hstep
          subst hs
          have hdn : s.draggedId = none := h4 (by simpa using hsp)
          refine ⟨h1, ?_, ?_, fun _ => hdn⟩
          · intro n hn
            exact h2 n hn
          · intro j hj
            exact h3 j hj
      · -- pinching this frame
        rw [if_pos rfl] at hstep
        by_cases hsp : s.isPinching = false
        · rw [if_pos hsp] at hstep
          have hdn : s.draggedId = none := h4 hsp
          rcases hfind : s.numbers.find?
              (fun n => decide ((n.x - (1 - tip.1)) * (n.x - (1 - tip.1))
                + (n.y - tip.2) * (n.y - tip.2) < (1/200 : ℚ)))
            with _ | hit <;> rw [hfind] at hstep <;> dsimp only at hstep
          · simp only [Option.some_inj, Prod.mk.injEq] at hstep
            obtain ⟨hs, _⟩ := hstep
            subst hs
            exact ⟨h1, h2, h3, fun habs => by cases habs⟩
          · simp only [Option.some_inj, Prod.mk.injEq] at hstep
            obtain ⟨hs, _⟩ := hstep
            subst hs
            refine ⟨?_, ?_, ?_, fun habs => by cases habs⟩
            · rw [map_ids_eq (fun n => by split_ifs <;> rfl)]
              exact h1
            · intro n' hn'
              simp only [List.mem_map] at hn'
              obtain ⟨n, hn, rfl⟩ := hn'
              by_cases hni : n.id = hit.id
              · rw [if_pos hni]
                exact iff_of_true rfl (by rw [hni])
              · rw [if_neg hni]
                refine iff_of_false ?_ ?_
                · intro hdrag
                  have hcontra := (h2 n hn).mp hdrag
                  rw [hdn] at hcontra
                  cases hcontra
                · intro habs
                  exact hni (Option.some_inj.mp habs).symm
            · intro j hj
              have hji : hit.id = j := Option.some_inj.mp hj
              refine ⟨{ hit with isDragging := true }, ?_, by rw [← hji]⟩
              have hhit := List.mem_of_find?_eq_some hfind
              have hrw : ({ hit with isDragging := true } : DraggableNumber)
                  = (fun n => if n.id = hit.id then { n with isDragging := true } else n) hit := by
                simp
              rw [hrw]
              exact List.mem_map_of_mem _ hhit
        · rw [if_neg hsp] at hstep
          rcases hd : s.draggedId with _ | i <;> rw [hd] at hstep <;> dsimp only at hstep
          · simp only [Option.some_inj, Prod.mk.injEq] at hstep
            obtain ⟨hs, _⟩ := hstep
            subst hs
            refine ⟨h1, ?_, ?_, fun habs => by cases habs⟩
            · intro n hn
              rw [h2 n hn, hd]
            · intro j hj
              cases hj
          · simp only [Option.some_inj, Prod.mk.injEq] at hstep
            obtain ⟨hs, _⟩ := hstep
            subst hs
            refine ⟨?_, ?_, ?_, fun habs => by cases habs⟩
            · rw [map_ids_eq (fun n => by split_ifs <;> rfl)]
              exact h1
            · intro n' hn'
              simp only [List.mem_map] at hn'
              obtain ⟨n, hn, rfl⟩ := hn'
              by_cases hni : n.id = i
              · rw [if_pos hni]
                have hiff := h2 n hn
                rw [hd] at hiff
                simpa [hni] using hiff
              · rw [if_neg hni]
                have hiff := h2 n hn
                rw [hd] at hiff
                exact hiff
            · intro j hj
              have hji : i = j := Option.some_inj.mp hj
              obtain ⟨n, hn, hni⟩ := h3 i hd
              refine ⟨{ n with x := 1 - tip.1, y := tip.2 }, ?_, by simpa using hni.trans hji⟩
              have hrw : ({ n with x := 1 - tip.1, y := tip.2 } : DraggableNumber)
                  = (fun m => if m.id = i then { m with x := 1 - tip.1, y := tip.2 } else m) n := by
                simp [hni]
              rw [hrw]
              exact List.mem_map_of_mem _ hn

lemma map_congr_mem {l : List DraggableNumber} {g g' : DraggableNumber → DraggableNumber}
    (h : ∀ n ∈ l, g n = g' n) : l.map g = l.map g' := by
  induction l with
  | nil => rfl
  | cons a t ih => simp [h a (by simp), ih (fun n hn => h n (List.mem_cons_of_mem a hn))]

lemma map_eq_self_mem {l : List DraggableNumber} {g : DraggableNumber → DraggableNumber}
    (h : ∀ n ∈ l, g n = n) : l.map g = l := by
  induction l with
  | nil => rfl
  | cons a t ih => simp [h a (by simp), ih (fun n hn => h n (List.mem_cons_of_mem a hn))]

lemma generateRightBoxLevelGo_isDragging {count : ℕ} :
    ∀ (draws : List RBGenDraw) (acc : List DraggableNumber) (used : List ℕ),
      (∀ n ∈ acc, n.isDragging = false) →
      ∀ n ∈ generateRightBoxLevelGo count draws acc used, n.isDragging = false := by
  intro draws
  induction draws with
  | nil =>
    intro acc used h
    rw [generateRightBoxLevelGo]
    exact h
  | cons d rest ih =>
    intro acc used h
    rw [generateRightBoxLevelGo]
    dsimp only
    split_ifs with h1 h2
    · exact h
    · exact ih _ _ h
    · refine ih _ _ ?_
      intro n hn
      rcases List.mem_append.mp hn with hn | hn
      · exact h n hn
      · simp at hn
        subst hn
        rfl

lemma generateRightBoxLevel_isDragging {t : ℕ} {draws : List RBGenDraw} {lv : RightBoxLevel}
    (h : generateRightBoxLevel t draws = some lv) :
    ∀ n ∈ lv.numbers, n.isDragging = false := by
  unfold generateRightBoxLevel at h
  dsimp only at h
  split_ifs at h with hlen <;>
    (simp only [Option.some_inj] at h
     subst h
     exact generateRightBoxLevelGo_isDragging draws [] [] (by simp))

/-- Invariant holds in every reachable state of a level whose item ids are
pairwise distinct. -/
lemma rbReach_inv {lv : RightBoxLevel}
    (hids : (lv.numbers.map (fun n => n.id)).Nodup)
    (hdrag : ∀ n ∈ lv.numbers, n.isDragging = false)
    {s : RBState} (h : RBReach lv s) : RBInv s := by
  induction h with
  | refl =>
    refine ⟨hids, ?_, ?_, fun _ => rfl⟩
    · intro n hn
      exact iff_of_false (by simp [hdrag n hn]) (by simp [rbInit])
    · intro j hj
      simp [rbInit] at hj
  | tail _ hstep ih =>
    obtain ⟨f, ev, hf⟩ := hstep
    exact rbStep_inv ih hf

/-- A drag can begin (dragged id going from `none` to `some`) only on a
pinch rising edge over a hit-tested item. -/
lemma rbStep_drag_start {s s' : RBState} {f : RBFrame} {ev : Option RBEvent} {i : String}
    (hstep : rightBoxOnResults s f = some (s', ev))
    (hnone : s.draggedId = none) (hsome : s'.draggedId = some i) :
    ∃ hand tip, f.hands.head? = some hand
      ∧ getIndexFingerTipCoordinates hand = some (some tip)
      ∧ isPinching hand = some true ∧ s.isPinching = false
      ∧ ∃ n ∈ s.numbers, n.id = i
          ∧ (n.x - (1 - tip.1)) * (n.x - (1 - tip.1)) + (n.y - tip.2) * (n.y - tip.2)
            < (1/200 : ℚ) := by
  unfold rightBoxOnResults at hstep
  rcases hf : f.hands with _ | ⟨hand, rest⟩ <;> rw [hf] at hstep <;> (try dsimp only at hstep)
  · -- empty frame cannot start a drag
    exfalso
    rw [hnone] at hstep
    dsimp only at hstep
    simp only [Option.some_inj, Prod.mk.injEq] at hstep
    obtain ⟨hs, _⟩ := hstep
    subst hs
    simp at hsome
  · rcases htipo : getIndexFingerTipCoordinates hand with _ | tipOpt <;>
      rw [htipo] at hstep <;> (try dsimp only at hstep)
    · cases hstep
    rcases tipOpt with _ | tip <;> (try dsimp only at hstep)
    · exfalso
      simp only [Option.some_inj, Prod.mk.injEq] at hstep
      obtain ⟨hs, _⟩ := hstep
      subst hs
      rw [hnone] at hsome
      simp at hsome
    rcases hp : isPinching hand with _ | pinching <;> rw [hp] at hstep <;>
      (try dsimp only at hstep)
    · cases hstep
    rcases pinching with _ | _
    · -- not pinching: dragged id can only be cleared
      exfalso
      rw [if_neg (by simp)] at hstep
      by_cases hsp : s.isPinching = true
      · rw [if_pos hsp, hnone] at hstep
        dsimp only at hstep
        simp only [Option.some_inj, Prod.mk.injEq] at hstep
        obtain ⟨hs, _⟩ := hstep
        subst hs
        simp at hsome
      · rw [if_neg hsp] at hstep
        simp only [Option.some_inj, Prod.mk.injEq] at hstep
        obtain ⟨hs, _⟩ := hstep
        subst hs
        rw [hnone] at hsome
        simp at hsome
    · rw [if_pos rfl] at hstep
      by_cases hsp : s.isPinching = false
      · rw [if_pos hsp] at hstep
        rcases hfind : s.numbers.find?
            (fun n => decide ((n.x - (1 - tip.1)) * (n.x - (1 - tip.1))
              + (n.y - tip.2) * (n.y - tip.2) < (1/200 : ℚ)))
          with _ | hit <;> rw [hfind] at hstep <;> (try dsimp only at hstep)
        · exfalso
          simp only [Option.some_inj, Prod.mk.injEq] at hstep
          obtain ⟨hs, _⟩ := hstep
          subst hs
          rw [hnone] at hsome
          simp at hsome
        · simp only [Option.some_inj, Prod.mk.injEq] at hstep
          obtain ⟨hs, _⟩ := hstep
          subst hs
          have hhi : hit.id = i := Option.some_inj.mp hsome
          have hpred := List.find?_some hfind
          have hmem := List.mem_of_find?_eq_some hfind
          exact ⟨hand, tip, rfl, htipo, hp, hsp,
            hit, hmem, hhi, by simpa using hpred⟩
      · exfalso
        rw [if_neg hsp, hnone] at hstep
        dsimp only at hstep
        simp only [Option.some_inj, Prod.mk.injEq] at hstep
        obtain ⟨hs, _⟩ := hstep
        subst hs
        simp at hsome

/-- A frame with no detected hands clears the cursor and force-ends any
active drag without touching the score or positions. -/
lemma rbStep_empty_frame {s s' : RBState} {f : RBFrame} {ev : Option RBEvent}
    (hinv : RBInv s) (hstep : rightBoxOnResults s f = some (s', ev)) (hempty : f.hands = []) :
    s'.cursor = none ∧ s'.draggedId = none
    ∧ (∀ n ∈ s'.numbers, n.isDragging = false)
    ∧ s'.score = s.score
    ∧ s'.numbers = s.numbers.map (fun n => { n with isDragging := false }) := by
  obtain ⟨h1, h2, h3, h4⟩ := hinv
  unfold rightBoxOnResults at hstep
  rw [hempty] at hstep
  dsimp only at hstep
  rcases hd : s.draggedId with _ | i <;> rw [hd] at hstep <;> dsimp only at hstep
  · simp only [Option.some_inj, Prod.mk.injEq] at hstep
    obtain ⟨hs, _⟩ := hstep
    subst hs
    have hflags : ∀ n ∈ s.numbers, n.isDragging = false := by
      intro n hn
      by_contra hb
      have := (h2 n hn).mp (by simpa using hb)
      rw [hd] at this
      cases this
    refine ⟨rfl, rfl, hflags, rfl, ?_⟩
    exact (map_eq_self_mem (fun n hn => unmark_eq_self (hflags n hn))).symm
  · rcases hfind : s.numbers.find? (fun n => n.id == i) with _ | found <;>
      rw [hfind] at hstep <;> dsimp only at hstep
    · exfalso
      have hsome := find?_id_isSome (h3 i hd)
      rw [hfind] at hsome
      cases hsome
    · simp only [Option.some_inj, Prod.mk.injEq] at hstep
      obtain ⟨hs, _⟩ := hstep
      subst hs
      have hflags : ∀ n ∈ s.numbers, n.id ≠ i → n.isDragging = false := by
        intro n hn hni
        by_contra hb
        have := (h2 n hn).mp (by simpa using hb)
        rw [hd] at this
        exact hni (Option.some_inj.mp this).symm
      refine ⟨rfl, rfl, ?_, rfl, ?_⟩
      · intro n' hn'
        simp only [List.mem_map] at hn'
        obtain ⟨n, hn, rfl⟩ := hn'
        by_cases hni : n.id = i
        · rw [if_pos hni]
        · rw [if_neg hni]
          exact hflags n hn hni
      · refine map_congr_mem (fun n hn => ?_)
        by_cases hni : n.id = i
        · rw [if_pos hni]
        · rw [if_neg hni, unmark_eq_self (hflags n hn hni)]

/-- Claim C4 (amended): provided the freshly generated level's item ids are
pairwise distinct, in every reachable state at most one item is marked
dragging (the dragged id field records at most one id by construction); a
drag begins only on a pinch rising edge over a hit-tested item (squared
distance below 0.005); and an empty detected-hands frame clears the cursor
and force-ends any drag — score and positions untouched, so the drop zone is
never evaluated. -/
theorem rightBox_drag_invariants
    (typeDraw : ℕ) (draws : List RBGenDraw) (lv : RightBoxLevel)
    (hgen : generateRightBoxLevel typeDraw draws = some lv)
    (hids : (lv.numbers.map (fun n => n.id)).Nodup)
    (s : RBState) (hreach : RBReach lv s)
    (f : RBFrame) (s' : RBState) (ev : Option RBEvent) (i : String)
    (hstep : rightBoxOnResults s f = some (s', ev)) :
    s.numbers.countP (fun n => n.isDragging) ≤ 1
    ∧ s'.numbers.countP (fun n => n.isDragging) ≤ 1
    ∧ (s.draggedId = none → s'.draggedId = some i →
        ∃ hand tip, f.hands.head? = some hand
          ∧ getIndexFingerTipCoordinates hand = some (some tip)
          ∧ isPinching hand = some true ∧ s.isPinching = false
          ∧ ∃ n ∈ s.numbers, n.id = i
              ∧ (n.x - (1 - tip.1)) * (n.x - (1 - tip.1)) + (n.y - tip.2) * (n.y - tip.2)
                < (1/200 : ℚ))
    ∧ (f.hands = [] →
        s'.cursor = none ∧ s'.draggedId = none
        ∧ (∀ n ∈ s'.numbers, n.isDragging = false)
        ∧ s'.score = s.score
        ∧ s'.numbers = s.numbers.map (fun n => { n with isDragging := false })) := by
  have hinv := rbReach_inv hids (generateRightBoxLevel_isDragging hgen) hreach
  have hinv' := rbStep_inv hinv hstep
  exact ⟨hinv.countP_le_one, hinv'.countP_le_one,
    fun h1 h2 => rbStep_drag_start hstep h1 h2,
    fun he => rbStep_empty_frame hinv hstep he⟩

/-- Concrete draw stream whose six id draws are pairwise distinct. -/
def rbDraws : List RBGenDraw :=
  [{ valDraw := 0, idDraw := "a", xDraw := 0, yDraw := 0 },
   { valDraw := 1, idDraw := "b", xDraw := 0, yDraw := 0 },
   { valDraw := 2, idDraw := "c", xDraw := 0, yDraw := 0 },
   { valDraw := 3, idDraw := "d", xDraw := 0, yDraw := 0 },
   { valDraw := 4, idDraw := "e", xDraw := 0, yDraw := 0 },
   { valDraw := 5, idDraw := "f", xDraw := 0, yDraw := 0 }]

/-- Level produced by `generateRightBoxLevel 0 rbDraws`. -/
def rbLevel : RightBoxLevel :=
  { targetType := ParityType.even,
    numbers :=
      [{ id := "num-" ++ "a", value := 1, x := 0 * (3/5) + 1/20, y := 0 * (3/5) + 1/5, isDragging := false },
       { id := "num-" ++ "b", value := 2, x := 0 * (3/5) + 1/20, y := 0 * (3/5) + 1/5, isDragging := false },
       { id := "num-" ++ "c", value := 3, x := 0 * (3/5) + 1/20, y := 0 * (3/5) + 1/5, isDragging := false },
       { id := "num-" ++ "d", value := 4, x := 0 * (3/5) + 1/20, y := 0 * (3/5) + 1/5, isDragging := false },
       { id := "num-" ++ "e", value := 5, x := 0 * (3/5) + 1/20, y := 0 * (3/5) + 1/5, isDragging := false },
       { id := "num-" ++ "f", value := 6, x := 0 * (3/5) + 1/20, y := 0 * (3/5) + 1/5, isDragging := false }] }

/-- Witness for the amended claim C4: the generated sample level with its
distinct ids, in its initial state, processing an empty-hands frame. -/
theorem rightBox_drag_invariants_witness :
    (rbInit rbLevel).numbers.countP (fun n => n.isDragging) ≤ 1
    ∧ (rbInit rbLevel).numbers.countP (fun n => n.isDragging) ≤ 1
    ∧ ((rbInit rbLevel).draggedId = none → (rbInit rbLevel).draggedId = some "z" →
        ∃ hand tip, ({ hands := [], rx := 0, ry := 0 } : RBFrame).hands.head? = some hand
          ∧ getIndexFingerTipCoordinates hand = some (some tip)
          ∧ isPinching hand = some true ∧ (rbInit rbLevel).isPinching = false
          ∧ ∃ n ∈ (rbInit rbLevel).numbers, n.id = "z"
              ∧ (n.x - (1 - tip.1)) * (n.x - (1 - tip.1)) + (n.y - tip.2) * (n.y - tip.2)
                < (1/200 : ℚ))
    ∧ (({ hands := [], rx := 0, ry := 0 } : RBFrame).hands = [] →
        (rbInit rbLevel).cursor = none ∧ (rbInit rbLevel).draggedId = none
        ∧ (∀ n ∈ (rbInit rbLevel).numbers, n.isDragging = false)
        ∧ (rbInit rbLevel).score = (rbInit rbLevel).score
        ∧ (rbInit rbLevel).numbers
            = (rbInit rbLevel).numbers.map (fun n => { n with isDragging := false })) :=
  rightBox_drag_invariants 0 rbDraws rbLevel rfl (by decide) (rbInit rbLevel)
    Relation.ReflTransGen.refl { hands := [], rx := 0, ry := 0 } (rbInit rbLevel) none "z" rfl

/-- Draw stream whose six id draws all collide (`Math.random().toString(36)`
can repeat a suffix; nothing in the generator prevents it). -/
def rbDupDraws : List RBGenDraw :=
  [{ valDraw := 0, idDraw := "h", xDraw := 0, yDraw := 0 },
   { valDraw := 1, idDraw := "h", xDraw := 0, yDraw := 0 },
   { valDraw := 2, idDraw := "h", xDraw := 0, yDraw := 0 },
   { valDraw := 3, idDraw := "h", xDraw := 0, yDraw := 0 },
   { valDraw := 4, idDraw := "h", xDraw := 0, yDraw := 0 },
   { valDraw := 5, idDraw := "h", xDraw := 0, yDraw := 0 }]

/-- Level produced by `generateRightBoxLevel 0 rbDupDraws`: six items sharing
one id. -/
def rbDupLevel : RightBoxLevel :=
  { targetType := ParityType.even,
    numbers :=
      [{ id := "num-" ++ "h", value := 1, x := 0 * (3/5) + 1/20, y := 0 * (3/5) + 1/5, isDragging := false },
       { id := "num-" ++ "h", value := 2, x := 0 * (3/5) + 1/20, y := 0 * (3/5) + 1/5, isDragging := false },
       { id := "num-" ++ "h", value := 3, x := 0 * (3/5) + 1/20, y := 0 * (3/5) + 1/5, isDragging := false },
       { id := "num-" ++ "h", value := 4, x := 0 * (3/5) + 1/20, y := 0 * (3/5) + 1/5, isDragging := false },
       { id := "num-" ++ "h", value := 5, x := 0 * (3/5) + 1/20, y := 0 * (3/5) + 1/5, isDragging := false },
       { id := "num-" ++ "h", value := 6, x := 0 * (3/5) + 1/20, y := 0 * (3/5) + 1/5, isDragging := false }] }

/-- A hand whose thumb tip and index tip coincide over the spawned items'
mirrored position: it pinches with the cursor on the items. -/
def pinchLm : Landmark := { x := 19/20, y := 1/5, z := 0 }

/-- The pinch frame delivered to the RightBox handler. -/
def rbPinchFrame : RBFrame :=
  { hands := [List.replicate 9 pinchLm], rx := 0, ry := 0 }

/-- State reached after the pinch rising edge: the hit item's id is recorded,
and every item carrying that id — all six — is marked dragging. -/
def rbDupState : RBState :=
  { targetType := ParityType.even,
    numbers :=
      [{ id := "num-" ++ "h", value := 1, x := 0 * (3/5) + 1/20, y := 0 * (3/5) + 1/5, isDragging := true },
       { id := "num-" ++ "h", value := 2, x := 0 * (3/5) + 1/20, y := 0 * (3/5) + 1/5, isDragging := true },
       { id := "num-" ++ "h", value := 3, x := 0 * (3/5) + 1/20, y := 0 * (3/5) + 1/5, isDragging := true },
       { id := "num-" ++ "h", value := 4, x := 0 * (3/5) + 1/20, y := 0 * (3/5) + 1/5, isDragging := true },
       { id := "num-" ++ "h", value := 5, x := 0 * (3/5) + 1/20, y := 0 * (3/5) + 1/5, isDragging := true },
       { id := "num-" ++ "h", value := 6, x := 0 * (3/5) + 1/20, y := 0 * (3/5) + 1/5, isDragging := true }],
    score := 0, feedback := none, isPinching := true, draggedId := some ("num-" ++ "h"),
    cursor := some (1 - (19/20 : ℚ), (1/5 : ℚ)) }

lemma rbDup_step :
    rightBoxOnResults (rbInit rbDupLevel) rbPinchFrame = some (rbDupState, none) := by
  have hpin : isPinching (List.replicate 9 pinchLm) = some true := by
    rw [@isPinching_eval (List.replicate 9 pinchLm) pinchLm pinchLm rfl rfl]
    norm_num [pinchLm]
  have hfind : (rbInit rbDupLevel).numbers.find?
      (fun n => decide ((n.x - (1 - 19/20)) * (n.x - (1 - 19/20))
        + (n.y - 1/5) * (n.y - 1/5) < (1/200 : ℚ)))
      = some { id := "num-" ++ "h", value := 1, x := 0 * (3/5) + 1/20, y := 0 * (3/5) + 1/5, isDragging := false } := by
    rw [show (rbInit rbDupLevel).numbers = rbDupLevel.numbers from rfl]
    rw [show rbDupLevel.numbers
        = ({ id := "num-" ++ "h", value := 1, x := 0 * (3/5) + 1/20, y := 0 * (3/5) + 1/5, isDragging := false } : DraggableNumber)
          :: rbDupLevel.numbers.tail from rfl]
    rw [List.find?_cons_of_pos _ (by norm_num)]
  unfold rightBoxOnResults
  rw [show rbPinchFrame.hands = [List.replicate 9 pinchLm] from rfl]
  dsimp only
  rw [show getIndexFingerTipCoordinates (List.replicate 9 pinchLm)
      = some (some ((19/20 : ℚ), (1/5 : ℚ))) from rfl]
  dsimp only
  rw [hpin]
  dsimp only
  rw [if_pos (show (true = true) from rfl)]
  rw [if_pos (show (rbInit rbDupLevel).isPinching = false from rfl)]
  rw [hfind]
  rfl

/-- Counterexample to claim C4 as stated: ids drawn by the generator can
collide, and then a single pinch rising edge marks two (here six) items
`isDragging = true` at once in a reachable state. -/
theorem rightBox_drag_invariants_cex :
    generateRightBoxLevel 0 rbDupDraws = some rbDupLevel
    ∧ RBReach rbDupLevel rbDupState
    ∧ ¬ rbDupState.numbers.countP (fun n => n.isDragging) ≤ 1 :=
  ⟨rfl, Relation.ReflTransGen.single ⟨rbPinchFrame, none, rbDup_step⟩, by decide⟩

/-- Claim C3: when a release (pinch ends with a drag active) happens with the
dragged item at `x > 0.75`, matching parity removes the item and adds 10;
mismatching parity floors the score at `max 0 (score - 5)` and relocates the
item into the left spawn region `x ∈ [0.05, 0.65]` with `isDragging` cleared;
a release at `x ≤ 0.75` merely clears the drag mark, keeping positions and
score. -/
theorem rightBox_release_spec
    (s : RBState) (f : RBFrame) (s' : RBState) (ev : Option RBEvent)
    (hand : List Landmark) (rest : List (List Landmark)) (tip : ℚ × ℚ)
    (i : String) (dn : DraggableNumber)
    (hhands : f.hands = hand :: rest)
    (htip : getIndexFingerTipCoordinates hand = some (some tip))
    (hnp : isPinching hand = some false)
    (hsp : s.isPinching = true)
    (hdrag : s.draggedId = some i)
    (hfind : s.numbers.find? (fun n => n.id == i) = some dn)
    (hrx0 : 0 ≤ f.rx) (hrx1 : f.rx < 1) (hry0 : 0 ≤ f.ry) (hry1 : f.ry < 1)
    (hstep : rightBoxOnResults s f = some (s', ev)) :
    (dn.x > 3/4 → isCorrectType s.targetType dn.value = true →
      s'.numbers = s.numbers.filter (fun n => !(n.id == dn.id))
      ∧ (∀ n ∈ s'.numbers, n.id ≠ dn.id)
      ∧ s'.score = s.score + 10 ∧ s'.draggedId = none)
    ∧ (dn.x > 3/4 → isCorrectType s.targetType dn.value = false →
      s'.score = max 0 (s.score - 5) ∧ 0 ≤ s'.score ∧ s'.draggedId = none
      ∧ ∃ m ∈ s'.numbers, m.id = dn.id ∧ m.isDragging = false
          ∧ 1/20 ≤ m.x ∧ m.x ≤ 13/20 ∧ 1/5 ≤ m.y ∧ m.y ≤ 4/5)
    ∧ (¬ dn.x > 3/4 →
      s'.numbers = s.numbers.map (fun n => if n.id = i then { n with isDragging := false } else n)
      ∧ s'.score = s.score ∧ s'.draggedId = none) := by
  have hdni : dn.id = i := by
    have := List.find?_some hfind
    simpa using this
  have hdnmem : dn ∈ s.numbers := List.mem_of_find?_eq_some hfind
  unfold rightBoxOnResults at hstep
  rw [hhands] at hstep
  (try dsimp only at hstep)
  rw [htip] at hstep
  (try dsimp only at hstep)
  rw [hnp] at hstep
  (try dsimp only at hstep)
  rw [if_neg (by simp)] at hstep
  rw [if_pos hsp, hdrag] at hstep
  (try dsimp only at hstep)
  rw [hfind] at hstep
  (try dsimp only at hstep)
  refine ⟨?_, ?_, ?_⟩
  · intro hx hty
    rw [if_pos hx] at hstep
    unfold handleDrop at hstep
    rw [if_pos hty] at hstep
    (try dsimp only at hstep)
    split_ifs at hstep with hlen <;>
      (simp only [Option.some_inj, Prod.mk.injEq] at hstep
       obtain ⟨hs, -⟩ := hstep
       subst hs) <;>
      refine ⟨rfl, ?_, rfl, rfl⟩ <;>
      (intro n hn
       have hkeep := List.of_mem_filter hn
       simpa using hkeep)
  · intro hx hty
    rw [if_pos hx] at hstep
    unfold handleDrop at hstep
    (try dsimp only at hstep)
    rw [if_neg (by simp [hty])] at hstep
    simp only [Option.some_inj, Prod.mk.injEq] at hstep
    obtain ⟨hs, -⟩ := hstep
    subst hs
    refine ⟨rfl, le_max_left _ _, rfl, ?_⟩
    refine ⟨{ dn with x := f.rx * (3/5) + 1/20, y := f.ry * (3/5) + 1/5, isDragging := false },
      ?_, rfl, rfl, by linarith, by linarith, by linarith, by linarith⟩
    have hrw : ({ dn with x := f.rx * (3/5) + 1/20, y := f.ry * (3/5) + 1/5, isDragging := false } : DraggableNumber)
        = (fun n => if n.id = dn.id then { n with x := f.rx * (3/5) + 1/20, y := f.ry * (3/5) + 1/5, isDragging := false } else n) dn := by
      simp
    rw [hrw]
    exact List.mem_map_of_mem _ hdnmem
  · intro hx
    rw [if_neg hx] at hstep
    simp only [Option.some_inj, Prod.mk.injEq] at hstep
    obtain ⟨hs, -⟩ := hstep
    subst hs
    exact ⟨rfl, rfl, rfl⟩

/-- A released (non-pinching) hand whose index tip sits at `(0.1, 0.5)`. -/
def relHand : List Landmark :=
  [lmD, lmD, lmD, lmD, lmD, lmD, lmD, lmD, { x := 1/10, y := 1/2, z := 0 }]

/-- The dragged even item sitting inside the drop zone at `x = 0.9`. -/
def relItem : DraggableNumber :=
  { id := "a", value := 4, x := 9/10, y := 1/2, isDragging := true }

/-- Mid-drag state: pinching, dragging `relItem` in an even-target level. -/
def relState : RBState :=
  { targetType := ParityType.even, numbers := [relItem], score := 0, feedback := none,
    isPinching := true, draggedId := some "a", cursor := some (9/10, 1/2) }

/-- The release frame: one non-pinching hand, relocation draws 0. -/
def relFrame : RBFrame := { hands := [relHand], rx := 0, ry := 0 }

/-- State after the release: the item is removed, 10 points scored, a new
level is scheduled because the list emptied. -/
def relState2 : RBState :=
  { targetType := ParityType.even, numbers := [], score := 0 + 10, feedback := some "Correct!",
    isPinching := false, draggedId := none, cursor := some (1 - (1/10 : ℚ), (1/2 : ℚ)) }

lemma relHand_not_pinching : isPinching relHand = some false := by
  rw [@isPinching_eval relHand lmD { x := 1/10, y := 1/2, z := 0 } rfl rfl]
  norm_num [lmD]

lemma rel_step :
    rightBoxOnResults relState relFrame = some (relState2, some RBEvent.scheduleNewLevel) := by
  unfold rightBoxOnResults
  rw [show relFrame.hands = [relHand] from rfl]
  dsimp only
  rw [show getIndexFingerTipCoordinates relHand = some (some ((1/10 : ℚ), (1/2 : ℚ))) from rfl]
  dsimp only
  rw [relHand_not_pinching]
  dsimp only
  rw [if_neg (by simp)]
  rw [if_pos (show relState.isPinching = true from rfl)]
  rw [show relState.draggedId = some "a" from rfl]
  dsimp only
  rw [show relState.numbers.find? (fun n => n.id == "a") = some relItem from rfl]
  dsimp only
  rw [if_pos (show relItem.x > 3/4 by norm_num [relItem])]
  rfl

/-- Witness for claim C3: releasing the dragged even item 4 at `x = 0.9` in
an even-target level removes it and scores 10. -/
theorem rightBox_release_spec_witness :
    (relItem.x > 3/4 → isCorrectType relState.targetType relItem.value = true →
      relState2.numbers = relState.numbers.filter (fun n => !(n.id == relItem.id))
      ∧ (∀ n ∈ relState2.numbers, n.id ≠ relItem.id)
      ∧ relState2.score = relState.score + 10 ∧ relState2.draggedId = none)
    ∧ (relItem.x > 3/4 → isCorrectType relState.targetType relItem.value = false →
      relState2.score = max 0 (relState.score - 5) ∧ 0 ≤ relState2.score
      ∧ relState2.draggedId = none
      ∧ ∃ m ∈ relState2.numbers, m.id = relItem.id ∧ m.isDragging = false
          ∧ 1/20 ≤ m.x ∧ m.x ≤ 13/20 ∧ 1/5 ≤ m.y ∧ m.y ≤ 4/5)
    ∧ (¬ relItem.x > 3/4 →
      relState2.numbers
        = relState.numbers.map (fun n => if n.id = "a" then { n with isDragging := false } else n)
      ∧ relState2.score = relState.score ∧ relState2.draggedId = none) :=
  rightBox_release_spec relState relFrame relState2 (some RBEvent.scheduleNewLevel)
    relHand [] ((1/10 : ℚ), (1/2 : ℚ)) "a" relItem rfl rfl relHand_not_pinching rfl rfl rfl
    (by decide) (by decide) (by decide) (by decide) rel_step

end Mathiverse
